import Mathlib

/-!
Shallow embedding of the ABAC policy engine (`apps/abac/engine.py`) of the
psintellihrms repository, together with theorems settling the spec claims
about it.

Modelling conventions:
* Django model rows become Lean structures.  The ORM querysets the engine
  reads (`UserPolicy.objects.filter(...)`, `GroupPolicy.objects.filter(...)`)
  become list filters over a `Database` record that holds the rows; rows are
  carried already joined to their policies, exactly as `select_related` /
  `prefetch_related` deliver them to the engine.
* `Policy.is_valid_now()` and `UserPolicy.is_valid_now()` (defined in
  `apps/abac/models.py`, which only evaluates an optional validity window
  against the ambient clock) are modelled as boolean fields `valid_now`
  recording their value at the instant of the check.
* `Policy.evaluate(subject, resource, action, environment)` (the rule
  evaluator of `apps/abac/models.py`) is abstracted as a function
  `evalP : Policy → Bool`: the attribute snapshots and the action are
  fixed for the duration of one `check_access` call, so the residue of the
  evaluator inside the engine is exactly a boolean function of the policy.
* `get_current_organization()` (ambient tenant context from
  `apps/core/context.py`) becomes an explicit `Option Nat` argument to
  engine construction.
* The audit write (`PolicyLog.objects.create`) becomes an append to a list
  of `PolicyLog` records threaded through `check_access`; the possibility
  that the write raises is modelled by a boolean `auditOk` input, and the
  `try/except` of `_log_decision` by appending nothing when it is false.
-/

namespace Abac

/-- Policy effect. `apps/abac/models.py` defines the two constants
`Policy.ALLOW` and `Policy.DENY`; the engine only ever compares against
`Policy.DENY`. -/
inductive Effect where
  | ALLOW : Effect
  | DENY : Effect
deriving DecidableEq, Repr

/-- One `Policy` row, with the fields the engine reads. `valid_now` records
the value of `Policy.is_valid_now()` at the instant of the check. -/
structure Policy where
  id : Nat
  name : String
  effect : Effect
  priority : Int
  resource_type : Option String
  actions : Option (List String)
  resource_id : Option String
  is_active : Bool
  valid_now : Bool
  organization : Nat
deriving DecidableEq, Repr

/-- One `UserPolicy` row, joined to its `Policy` (`select_related('policy')`).
`valid_now` records `UserPolicy.is_valid_now()` at the instant of the check. -/
structure UserPolicy where
  user : Nat
  organization : Nat
  is_active : Bool
  valid_now : Bool
  policy : Policy
deriving DecidableEq, Repr

/-- One `GroupPolicy` row, joined to its many-to-many policy set
(`prefetch_related('policies')`). -/
structure GroupPolicy where
  organization : Nat
  group_type : String
  group_value : String
  is_active : Bool
  policies : List Policy
deriving DecidableEq, Repr

/-- The employee profile fields `_get_subject_attributes` reads that matter
to group resolution. Values bundled with the comparison semantics of
`group_value` equality, hence `Option String`. -/
structure Employee where
  department : Option String
  location : Option String
  job_level : Option String
  employment_type : Option String
deriving DecidableEq, Repr

/-- The subject (`User` row) with the fields the engine reads. -/
structure User where
  id : Nat
  email : String
  is_superuser : Bool
  is_org_admin : Bool
  is_verified : Bool
  employee : Option Employee
deriving DecidableEq, Repr

/-- The subject attribute snapshot (`_get_subject_attributes`), restricted
to the keys the engine itself consults afterwards. A key that is absent
from the Python dict (no employee profile) or bound to `None` is `none`. -/
structure SubjectAttrs where
  user_id : String
  email : String
  is_superuser : Bool
  is_org_admin : Bool
  is_verified : Bool
  organization_id : Option String
  department : Option String
  location : Option String
  job_level : Option String
  employment_type : Option String
deriving DecidableEq, Repr

/-- The environment attribute snapshot (`_get_environment_attributes`),
taken as an input because it is derived from the ambient clock. -/
structure EnvAttrs where
  current_time : String
  current_date : String
  current_datetime : String
  day_of_week : String
  is_weekend : Bool
  hour : Nat
deriving DecidableEq, Repr

/-- One `PolicyLog` audit row, capturing the full decision context that
`_log_decision` persists. -/
structure PolicyLog where
  user : Nat
  organization : Option Nat
  resource_type : String
  resource_id : String
  action : String
  result : Bool
  subject_attributes : SubjectAttrs
  resource_attributes : List (String × String)
  environment_attributes : EnvAttrs
  policies_evaluated : List String
  decision_reason : String
deriving DecidableEq, Repr

/-- The tenant-scoped tables the engine reads, as delivered to it by the
ORM (assignments joined to their policies). -/
structure Database where
  user_policies : List UserPolicy
  group_policies : List GroupPolicy
deriving DecidableEq, Repr

/-- The engine instance state set up by `PolicyEngine.__init__`. -/
structure PolicyEngine where
  user : User
  log_decisions : Bool
  organization : Option Nat
deriving DecidableEq, Repr

/-- `PolicyEngine.__init__`: stores the user and the logging flag, resolves
the ambient organization, and raises `PermissionDenied` when it is missing
and the user is not a superuser. -/
def PolicyEngine.init (user : User) (ctxOrg : Option Nat)
    (log_decisions : Bool := true) : Except String PolicyEngine :=
  if !ctxOrg.isSome && !user.is_superuser then
    Except.error "ABAC denied: Organization context is missing"
  else
    Except.ok { user := user, log_decisions := log_decisions, organization := ctxOrg }

/-- `_get_subject_attributes`: builds the subject snapshot from the user row,
the bound organization, and the optional employee profile. A missing
employee profile leaves the employment keys absent, i.e. `none`. -/
def PolicyEngine.get_subject_attributes (e : PolicyEngine) : SubjectAttrs :=
  { user_id := toString e.user.id
    email := e.user.email
    is_superuser := e.user.is_superuser
    is_org_admin := e.user.is_org_admin
    is_verified := e.user.is_verified
    organization_id := e.organization.map toString
    department := e.user.employee.bind (fun emp => emp.department)
    location := e.user.employee.bind (fun emp => emp.location)
    job_level := e.user.employee.bind (fun emp => emp.job_level)
    employment_type := e.user.employee.bind (fun emp => emp.employment_type) }

/-- The body of the `for group in active_groups` loop of
`_get_group_policies`: does the subject belong to this dynamic group?
`subject_attrs.get(key) == group.group_value` is `False` in Python when the
key is absent or bound to `None`, which the `Option` equality mirrors; a
`group_type` outside the four known kinds falls through every branch. -/
def groupApplies (g : GroupPolicy) (attrs : SubjectAttrs) : Bool :=
  if g.group_type == "department" then attrs.department == some g.group_value
  else if g.group_type == "location" then attrs.location == some g.group_value
  else if g.group_type == "job_level" then attrs.job_level == some g.group_value
  else if g.group_type == "employment_type" then attrs.employment_type == some g.group_value
  else false

/-- `_get_group_policies`: the `GroupPolicy.objects.filter(organization=...,
is_active=True)` queryset, then for each matching group all of
`group.policies.filter(is_active=True)`, concatenated in order. -/
def PolicyEngine.get_group_policies (e : PolicyEngine) (db : Database)
    (subject_attrs : SubjectAttrs) : List Policy :=
  (db.group_policies.filter
    (fun g => some g.organization == e.organization && g.is_active)).flatMap
    (fun g =>
      if groupApplies g subject_attrs then g.policies.filter (fun p => p.is_active)
      else [])

/-- The `UserPolicy.objects.filter(user=self.user, organization=self.organization,
is_active=True)` queryset of `_get_applicable_policies`. -/
def PolicyEngine.user_policy_rows (e : PolicyEngine) (db : Database) : List UserPolicy :=
  db.user_policies.filter
    (fun up => up.user == e.user.id && some up.organization == e.organization && up.is_active)

/-- The `active_user_policies` comprehension of `_get_applicable_policies`:
keep an assignment only while it is within its validity window and its
policy is active and within its own validity window, and project to the
policy. -/
def PolicyEngine.active_user_policies (e : PolicyEngine) (db : Database) : List Policy :=
  ((e.user_policy_rows db).filter
    (fun up => up.valid_now && up.policy.is_active && up.policy.valid_now)).map
    (fun up => up.policy)

/-- The per-policy filter loop of `_get_applicable_policies` (lines 172-182):
`true` exactly when none of the three `continue` branches fires. Python
truthiness makes `None` and the empty string or list skip a branch
entirely. -/
def policyApplies (p : Policy) (resource_type action : String)
    (resource_id : Option String) : Bool :=
  (match p.resource_type with
   | none => true
   | some rt => !(rt ≠ "" && rt ≠ resource_type)) &&
  (match p.actions with
   | none => true
   | some acts => !(!acts.isEmpty && !acts.contains action)) &&
  (match p.resource_id, resource_id with
   | some pid, some rid => !(pid ≠ "" && rid ≠ "" && pid ≠ rid)
   | _, _ => true)

/-- `applicable.sort(key=lambda p: p.priority, reverse=True)`: a stable sort
by priority descending. -/
def sortByPriorityDesc (l : List Policy) : List Policy :=
  l.mergeSort (fun a b => b.priority ≤ a.priority)

/-- `_get_applicable_policies`: direct assignments united with group
policies, deduplicated by policy identity (`list(set(...))`), filtered by
resource type / action / resource id, and sorted by priority descending. -/
def PolicyEngine.get_applicable_policies (e : PolicyEngine) (db : Database)
    (subject_attrs : SubjectAttrs) (resource_type action : String)
    (resource_id : Option String) : List Policy :=
  let all_policies :=
    (e.active_user_policies db ++ e.get_group_policies db subject_attrs).dedup
  let applicable :=
    all_policies.filter (fun p => policyApplies p resource_type action resource_id)
  sortByPriorityDesc applicable

/-- `_evaluate_policies`: evaluate every applicable policy against the fixed
attribute snapshots (abstracted as `evalP`), partition the matching ones
by effect, and decide deny-overrides-allow with a default deny. Returns
(decision, reason, evaluated policy ids). -/
def evaluate_policies (evalP : Policy → Bool) (policies : List Policy) :
    Bool × String × List String :=
  if policies.isEmpty then
    (false, "No applicable policies found", [])
  else
    let evaluated_ids := policies.map (fun p => toString p.id)
    let deny_policies := policies.filter (fun p => evalP p && p.effect == Effect.DENY)
    let allow_policies := policies.filter (fun p => evalP p && !(p.effect == Effect.DENY))
    if !deny_policies.isEmpty then
      (false,
       "Denied by policy: " ++ String.intercalate ", " (deny_policies.map (fun p => p.name)),
       evaluated_ids)
    else if !allow_policies.isEmpty then
      (true,
       "Allowed by policy: " ++ String.intercalate ", " (allow_policies.map (fun p => p.name)),
       evaluated_ids)
    else
      (false, "No matching policy rules", evaluated_ids)

/-- `_log_decision`: append one `PolicyLog` row; when the write raises
(`auditOk = false`) the exception is caught and nothing is persisted. -/
def PolicyEngine.log_decision (e : PolicyEngine) (auditOk : Bool)
    (logs : List PolicyLog) (rec : PolicyLog) : List PolicyLog :=
  if auditOk then logs ++ [rec] else logs

/-- `check_access`: the public entry point. Returns the boolean decision
together with the audit-log table after the call. `evalP` abstracts
`policy.evaluate(...)` for the fixed snapshots of this call, `env` the
ambient-clock snapshot, `auditOk` whether the audit insert succeeds, and
`logs` the `PolicyLog` table before the call. -/
def PolicyEngine.check_access (e : PolicyEngine) (db : Database)
    (evalP : Policy → Bool) (env : EnvAttrs) (auditOk : Bool)
    (logs : List PolicyLog) (resource_type action : String)
    (resource_attrs : List (String × String) := [])
    (resource_id : Option String := none) : Bool × List PolicyLog :=
  if e.user.is_superuser then (true, logs)
  else
    let subject_attrs := e.get_subject_attributes
    if subject_attrs.is_org_admin then (true, logs)
    else
      let policies :=
        e.get_applicable_policies db subject_attrs resource_type action resource_id
      let r := evaluate_policies evalP policies
      let logs' :=
        if e.log_decisions then
          e.log_decision auditOk logs
            { user := e.user.id
              organization := e.organization
              resource_type := resource_type
              resource_id := resource_id.getD ""
              action := action
              result := r.1
              subject_attributes := subject_attrs
              resource_attributes := resource_attrs
              environment_attributes := env
              policies_evaluated := r.2.2
              decision_reason := r.2.1 }
        else logs
      (r.1, logs')

/-! ### Concrete fixtures used by the witness theorems -/

/-- An employee profile in the Engineering department. -/
def engEmployee : Employee :=
  { department := some "Engineering", location := some "Pune",
    job_level := some "L3", employment_type := some "full_time" }

/-- A regular (non-superuser, non-admin) subject. -/
def alice : User :=
  { id := 1, email := "alice@corp.example", is_superuser := false,
    is_org_admin := false, is_verified := true, employee := some engEmployee }

/-- A superuser subject with no employee profile. -/
def rootUser : User :=
  { id := 0, email := "root@corp.example", is_superuser := true,
    is_org_admin := false, is_verified := true, employee := none }

/-- An organization-admin subject of tenant 1. -/
def orgAdmin : User :=
  { id := 2, email := "admin@corp.example", is_superuser := false,
    is_org_admin := true, is_verified := true, employee := none }

/-- An engine for `alice` bound to tenant 1, with logging enabled. -/
def aliceEngine : PolicyEngine :=
  { user := alice, log_decisions := true, organization := some 1 }

/-- An engine for the superuser with no tenant context, logging enabled. -/
def rootEngine : PolicyEngine :=
  { user := rootUser, log_decisions := true, organization := none }

/-- An engine for the tenant-1 organization admin, logging enabled. -/
def adminEngine : PolicyEngine :=
  { user := orgAdmin, log_decisions := true, organization := some 1 }

/-- A fixed environment snapshot for witnesses. -/
def env0 : EnvAttrs :=
  { current_time := "10:00:00", current_date := "2026-10-12",
    current_datetime := "2026-10-12T10:00:00", day_of_week := "Monday",
    is_weekend := false, hour := 10 }

/-- Tenant-1 DENY policy on reading payroll. -/
def p1 : Policy :=
  { id := 11, name := "P1", effect := Effect.DENY, priority := 10,
    resource_type := some "payroll", actions := some ["read"],
    resource_id := none, is_active := true, valid_now := true,
    organization := 1 }

/-- Tenant-1 ALLOW policy on reading payroll. -/
def p2 : Policy :=
  { id := 12, name := "P2", effect := Effect.ALLOW, priority := 5,
    resource_type := some "payroll", actions := some ["read"],
    resource_id := none, is_active := true, valid_now := true,
    organization := 1 }

/-- Tenant-1 ALLOW policy whose validity window has lapsed. -/
def p3 : Policy :=
  { id := 13, name := "P3", effect := Effect.ALLOW, priority := 1,
    resource_type := none, actions := none,
    resource_id := none, is_active := true, valid_now := false,
    organization := 1 }

/-- Tenant-2 DENY-everything policy, used to probe tenant isolation. -/
def q1 : Policy :=
  { id := 21, name := "Q1", effect := Effect.DENY, priority := 99,
    resource_type := none, actions := none,
    resource_id := none, is_active := true, valid_now := true,
    organization := 2 }

/-- The tenant-1 Engineering department group carrying `p1` and `p3`. -/
def engGroup : GroupPolicy :=
  { organization := 1, group_type := "department", group_value := "Engineering",
    is_active := true, policies := [p1, p3] }

/-- A tenant-2 group with the same department value, carrying `q1`. -/
def tenant2Group : GroupPolicy :=
  { organization := 2, group_type := "department", group_value := "Engineering",
    is_active := true, policies := [q1] }

/-- A small two-tenant database: `alice` has `p2` directly assigned in
tenant 1, the Engineering group carries `p1` and `p3` in tenant 1, and
tenant 2 holds a coincidentally matching assignment and group for the same
user id and department value. -/
def db0 : Database :=
  { user_policies :=
      [ { user := 1, organization := 1, is_active := true, valid_now := true, policy := p2 },
        { user := 1, organization := 2, is_active := true, valid_now := true, policy := q1 } ],
    group_policies := [engGroup, tenant2Group] }

/-! ### Theorems -/

/-- C1: a non-superuser subject with no resolvable tenant context makes
engine construction fail with `PermissionDenied`, so no engine instance —
and hence no `check_access` call — exists for it; a superuser subject is
constructed successfully even without a tenant; and every successfully
constructed engine belongs to a superuser or carries a tenant. -/
theorem construction_fails_closed_without_tenant (user : User) (d : Bool) :
    (user.is_superuser = false →
      PolicyEngine.init user none d =
        Except.error "ABAC denied: Organization context is missing") ∧
    (user.is_superuser = true →
      PolicyEngine.init user none d =
        Except.ok { user := user, log_decisions := d, organization := none }) ∧
    (∀ ctxOrg : Option Nat, ∀ e : PolicyEngine,
      PolicyEngine.init user ctxOrg d = Except.ok e →
      user.is_superuser = true ∨ ctxOrg.isSome = true) := by
  refine ⟨fun h => ?_, fun h => ?_, fun ctxOrg e h => ?_⟩
  · simp [PolicyEngine.init, h]
  · simp [PolicyEngine.init, h]
  · by_cases hs : user.is_superuser = true
    · exact Or.inl hs
    · right
      by_cases ho : ctxOrg.isSome = true
      · exact ho
      · simp [PolicyEngine.init, hs, ho] at h

/-- Witness for C1 at the concrete subjects `alice` and `rootUser`. -/
theorem construction_fails_closed_without_tenant_witness :
    (alice.is_superuser = false ∧
      PolicyEngine.init alice none true =
        Except.error "ABAC denied: Organization context is missing") ∧
    (rootUser.is_superuser = true ∧
      PolicyEngine.init rootUser none true =
        Except.ok { user := rootUser, log_decisions := true, organization := none }) :=
  ⟨⟨rfl, (construction_fails_closed_without_tenant alice true).1 rfl⟩,
   ⟨rfl, (construction_fails_closed_without_tenant rootUser true).2.1 rfl⟩⟩

/-- C4: a superuser subject, and an organization-admin subject (in
particular one whose engine is bound to their own tenant), always receive
ALLOW from `check_access`, for every database state; the bypass happens
before any policy resolution or logging, so the log table is returned
untouched. -/
theorem bypasses_allow_before_resolution (e : PolicyEngine) (db : Database)
    (evalP : Policy → Bool) (env : EnvAttrs) (auditOk : Bool)
    (logs : List PolicyLog) (rt act : String) (ra : List (String × String))
    (rid : Option String)
    (h : e.user.is_superuser = true ∨ e.user.is_org_admin = true) :
    e.check_access db evalP env auditOk logs rt act ra rid = (true, logs) := by
  rcases h with h | h
  · simp [PolicyEngine.check_access, h]
  · by_cases hs : e.user.is_superuser = true
    · simp [PolicyEngine.check_access, hs]
    · simp [PolicyEngine.check_access, hs, PolicyEngine.get_subject_attributes, h]

/-- Witness for C4: the superuser engine and the tenant-1 org-admin engine
both get ALLOW on the concrete database `db0`. -/
theorem bypasses_allow_before_resolution_witness :
    rootEngine.check_access db0 (fun _ => false) env0 true [] "payroll" "read" [] none
      = (true, []) ∧
    adminEngine.check_access db0 (fun _ => false) env0 true [] "payroll" "read" [] none
      = (true, []) :=
  ⟨bypasses_allow_before_resolution rootEngine db0 (fun _ => false) env0 true [] "payroll"
      "read" [] none (Or.inl rfl),
   bypasses_allow_before_resolution adminEngine db0 (fun _ => false) env0 true [] "payroll"
      "read" [] none (Or.inr rfl)⟩

/-- C9: when the audit write raises, the exception is swallowed inside
`_log_decision`: `check_access` returns exactly the boolean it would have
returned had the write succeeded, and the log table is left unchanged. -/
theorem audit_failure_never_blocks_decision (e : PolicyEngine) (db : Database)
    (evalP : Policy → Bool) (env : EnvAttrs) (logs : List PolicyLog)
    (rt act : String) (ra : List (String × String)) (rid : Option String) :
    (e.check_access db evalP env false logs rt act ra rid).1 =
      (e.check_access db evalP env true logs rt act ra rid).1 ∧
    (e.check_access db evalP env false logs rt act ra rid).2 = logs := by
  by_cases hs : e.user.is_superuser = true
  · simp [PolicyEngine.check_access, hs]
  · by_cases ha : e.user.is_org_admin = true
    · simp [PolicyEngine.check_access, hs, PolicyEngine.get_subject_attributes, ha]
    · simp [PolicyEngine.check_access, hs, PolicyEngine.get_subject_attributes, ha,
        PolicyEngine.log_decision]

/-- The audit record `check_access` hands to `_log_decision`. -/
def PolicyEngine.decision_record (e : PolicyEngine) (db : Database)
    (evalP : Policy → Bool) (env : EnvAttrs) (rt act : String)
    (ra : List (String × String)) (rid : Option String) : PolicyLog :=
  let r := evaluate_policies evalP
    (e.get_applicable_policies db e.get_subject_attributes rt act rid)
  { user := e.user.id
    organization := e.organization
    resource_type := rt
    resource_id := rid.getD ""
    action := act
    result := r.1
    subject_attributes := e.get_subject_attributes
    resource_attributes := ra
    environment_attributes := env
    policies_evaluated := r.2.2
    decision_reason := r.2.1 }

/-- C8 counterexample: with logging enabled, a `check_access` call resolved
by the superuser bypass returns before `_log_decision` is ever reached, so
it creates zero `PolicyLog` records, not exactly one as the claim states. -/
theorem bypassed_call_creates_no_log_counterexample :
    rootEngine.log_decisions = true ∧
    rootEngine.user.is_superuser = true ∧
    (rootEngine.check_access db0 (fun _ => true) env0 true [] "payroll" "read" [] none).2
      = [] ∧
    ¬ ((rootEngine.check_access db0 (fun _ => true) env0 true [] "payroll" "read" []
        none).2.length = 1) := by
  refine ⟨rfl, rfl, rfl, ?_⟩
  intro h
  simp [PolicyEngine.check_access, rootEngine, rootUser] at h

/-- C8 amended: when logging is enabled, every `check_access` call that is
not resolved by the superuser or organization-admin bypass and whose audit
write succeeds appends exactly one `PolicyLog` record capturing the
decision with its full attribute context; bypassed calls append none; and
in every case the engine only ever appends to the log table, never
mutating or deleting existing records. -/
theorem audit_appends_exactly_one_record (e : PolicyEngine) (db : Database)
    (evalP : Policy → Bool) (env : EnvAttrs) (auditOk : Bool)
    (logs : List PolicyLog) (rt act : String) (ra : List (String × String))
    (rid : Option String) :
    (e.user.is_superuser = false → e.user.is_org_admin = false →
      e.log_decisions = true →
      (e.check_access db evalP env true logs rt act ra rid).2 =
        logs ++ [e.decision_record db evalP env rt act ra rid] ∧
      (e.decision_record db evalP env rt act ra rid).result =
        (e.check_access db evalP env true logs rt act ra rid).1 ∧
      (e.decision_record db evalP env rt act ra rid).subject_attributes =
        e.get_subject_attributes ∧
      (e.decision_record db evalP env rt act ra rid).resource_attributes = ra ∧
      (e.decision_record db evalP env rt act ra rid).environment_attributes = env) ∧
    ((e.user.is_superuser = true ∨ e.user.is_org_admin = true) →
      (e.check_access db evalP env auditOk logs rt act ra rid).2 = logs) ∧
    (∃ new, (e.check_access db evalP env auditOk logs rt act ra rid).2 = logs ++ new) := by
  refine ⟨fun hs ha hl => ?_, fun h => ?_, ?_⟩
  · refine ⟨?_, ?_, rfl, rfl, rfl⟩
    · simp [PolicyEngine.check_access, hs, PolicyEngine.get_subject_attributes, ha, hl,
        PolicyEngine.log_decision, PolicyEngine.decision_record]
    · simp [PolicyEngine.check_access, hs, PolicyEngine.get_subject_attributes, ha,
        PolicyEngine.decision_record]
  · rcases h with h | h
    · simp [PolicyEngine.check_access, h]
    · by_cases hs : e.user.is_superuser = true
      · simp [PolicyEngine.check_access, hs]
      · simp [PolicyEngine.check_access, hs, PolicyEngine.get_subject_attributes, h]
  · by_cases hs : e.user.is_superuser = true
    · exact ⟨[], by simp [PolicyEngine.check_access, hs]⟩
    · by_cases ha : e.user.is_org_admin = true
      · exact ⟨[], by simp [PolicyEngine.check_access, hs,
          PolicyEngine.get_subject_attributes, ha]⟩
      · by_cases hl : e.log_decisions = true
        · cases hok : auditOk
          · exact ⟨[], by simp [PolicyEngine.check_access, hs,
              PolicyEngine.get_subject_attributes, ha, hl, PolicyEngine.log_decision]⟩
          · exact ⟨[e.decision_record db evalP env rt act ra rid], by
              simp [PolicyEngine.check_access, hs, PolicyEngine.get_subject_attributes,
                ha, hl, PolicyEngine.log_decision, PolicyEngine.decision_record]⟩
        · exact ⟨[], by simp [PolicyEngine.check_access, hs,
            PolicyEngine.get_subject_attributes, ha, hl]⟩

/-- Witness for the amended C8 at the concrete engine `aliceEngine` on
`db0`: the non-bypassed, logging-enabled, audit-ok call appends exactly
its decision record. -/
theorem audit_appends_exactly_one_record_witness :
    aliceEngine.user.is_superuser = false ∧
    aliceEngine.user.is_org_admin = false ∧
    aliceEngine.log_decisions = true ∧
    (aliceEngine.check_access db0 (fun _ => true) env0 true [] "payroll" "read" [] none).2 =
      [] ++ [aliceEngine.decision_record db0 (fun _ => true) env0 "payroll" "read" [] none] :=
  ⟨rfl, rfl, rfl,
    ((audit_appends_exactly_one_record aliceEngine db0 (fun _ => true) env0 true []
      "payroll" "read" [] none).1 rfl rfl rfl).1⟩

/-- The boolean decision of `_evaluate_policies` in closed form: allow
exactly when no applicable policy matches with effect DENY and at least
one matches with another (i.e. ALLOW) effect. -/
theorem evaluate_policies_decision (evalP : Policy → Bool) (l : List Policy) :
    (evaluate_policies evalP l).1 =
      ((l.filter (fun p => evalP p && p.effect == Effect.DENY)).isEmpty &&
       !(l.filter (fun p => evalP p && !(p.effect == Effect.DENY))).isEmpty) := by
  unfold evaluate_policies
  by_cases hl : l.isEmpty
  · have : l = [] := by simpa [List.isEmpty_iff] using hl
    subst this; simp
  · by_cases hd : ((l.filter (fun p => evalP p && p.effect == Effect.DENY)).isEmpty : Bool)
    · by_cases ha : ((l.filter (fun p => evalP p && !(p.effect == Effect.DENY))).isEmpty : Bool)
      · simp [hl, hd, ha]
      · simp [hl, hd, ha]
    · simp [hl, hd]

/-- C2: whenever the applicable-policy set contains at least one matching
DENY policy and at least one matching ALLOW policy, `_evaluate_policies`
decides DENY and its reason names every matching DENY policy; a
non-bypassed `check_access` over such an applicable set therefore returns
`false`. -/
theorem deny_overrides_allow (evalP : Policy → Bool) (policies : List Policy)
    (hdeny : ∃ p ∈ policies, evalP p = true ∧ p.effect = Effect.DENY)
    (hallow : ∃ p ∈ policies, evalP p = true ∧ p.effect = Effect.ALLOW) :
    (evaluate_policies evalP policies).1 = false ∧
    (evaluate_policies evalP policies).2.1 =
      "Denied by policy: " ++ String.intercalate ", "
        ((policies.filter (fun p => evalP p && p.effect == Effect.DENY)).map
          (fun p => p.name)) ∧
    (∀ e : PolicyEngine, ∀ db : Database, ∀ env : EnvAttrs, ∀ auditOk : Bool,
      ∀ logs : List PolicyLog, ∀ rt act : String, ∀ ra : List (String × String),
      ∀ rid : Option String,
      e.user.is_superuser = false → e.user.is_org_admin = false →
      policies = e.get_applicable_policies db e.get_subject_attributes rt act rid →
      (e.check_access db evalP env auditOk logs rt act ra rid).1 = false) := by
  obtain ⟨pd, hpd, hev, heff⟩ := hdeny
  have hne : policies ≠ [] := List.ne_nil_of_mem hpd
  have hdmem : pd ∈ policies.filter (fun p => evalP p && p.effect == Effect.DENY) := by
    simp [List.mem_filter, hpd, hev, heff]
  have hdne : policies.filter (fun p => evalP p && p.effect == Effect.DENY) ≠ [] :=
    List.ne_nil_of_mem hdmem
  have h1 : (evaluate_policies evalP policies).1 = false := by
    unfold evaluate_policies
    simp [List.isEmpty_iff, hne, hdne]
  refine ⟨h1, ?_, ?_⟩
  · unfold evaluate_policies
    simp [List.isEmpty_iff, hne, hdne]
  · intro e db env auditOk logs rt act ra rid hs ha hpol
    have : (e.check_access db evalP env auditOk logs rt act ra rid).1 =
        (evaluate_policies evalP
          (e.get_applicable_policies db e.get_subject_attributes rt act rid)).1 := by
      simp [PolicyEngine.check_access, hs, PolicyEngine.get_subject_attributes, ha,
        PolicyEngine.log_decision]
    rw [this, ← hpol, h1]

/-- Witness for C2: with `p1` (DENY) and `p2` (ALLOW) both matching, the
decision is DENY and the reason names `P1`. -/
theorem deny_overrides_allow_witness :
    (∃ p ∈ [p1, p2], (fun _ : Policy => true) p = true ∧ p.effect = Effect.DENY) ∧
    (∃ p ∈ [p1, p2], (fun _ : Policy => true) p = true ∧ p.effect = Effect.ALLOW) ∧
    (evaluate_policies (fun _ => true) [p1, p2]).1 = false ∧
    (evaluate_policies (fun _ => true) [p1, p2]).2.1 =
      "Denied by policy: " ++ String.intercalate ", "
        (([p1, p2].filter (fun p => (fun _ : Policy => true) p &&
          p.effect == Effect.DENY)).map (fun p => p.name)) := by
  have hd : ∃ p ∈ [p1, p2], (fun _ : Policy => true) p = true ∧ p.effect = Effect.DENY :=
    ⟨p1, by simp, rfl, rfl⟩
  have ha : ∃ p ∈ [p1, p2], (fun _ : Policy => true) p = true ∧ p.effect = Effect.ALLOW :=
    ⟨p2, by simp, rfl, rfl⟩
  have h := deny_overrides_allow (fun _ => true) [p1, p2] hd ha
  exact ⟨hd, ha, h.1, h.2.1⟩

/-- C3: an empty applicable set decides DENY with reason
"No applicable policies found"; a non-empty set in which no policy matches
decides DENY with reason "No matching policy rules"; a decision is ALLOW
only when some applicable policy actually matches with effect ALLOW (never
by default); and for a non-bypassed request `check_access` returns exactly
the decision `_evaluate_policies` makes on the resolved applicable set. -/
theorem default_deny (e : PolicyEngine) (db : Database) (evalP : Policy → Bool)
    (env : EnvAttrs) (auditOk : Bool) (logs : List PolicyLog)
    (rt act : String) (ra : List (String × String)) (rid : Option String)
    (policies : List Policy) :
    evaluate_policies evalP [] = (false, "No applicable policies found", []) ∧
    (policies ≠ [] → (∀ p ∈ policies, evalP p = false) →
      (evaluate_policies evalP policies).1 = false ∧
      (evaluate_policies evalP policies).2.1 = "No matching policy rules") ∧
    ((evaluate_policies evalP policies).1 = true →
      ∃ p ∈ policies, evalP p = true ∧ p.effect = Effect.ALLOW) ∧
    (e.user.is_superuser = false → e.user.is_org_admin = false →
      (e.check_access db evalP env auditOk logs rt act ra rid).1 =
        (evaluate_policies evalP
          (e.get_applicable_policies db e.get_subject_attributes rt act rid)).1) := by
  refine ⟨by simp [evaluate_policies], fun hne hno => ?_, fun htrue => ?_, fun hs ha => ?_⟩
  · have hd : policies.filter (fun p => evalP p && p.effect == Effect.DENY) = [] := by
      rw [List.filter_eq_nil_iff]
      intro p hp
      simp [hno p hp]
    have hal : policies.filter (fun p => evalP p && !(p.effect == Effect.DENY)) = [] := by
      rw [List.filter_eq_nil_iff]
      intro p hp
      simp [hno p hp]
    constructor
    · rw [evaluate_policies_decision, hal]
      simp
    · unfold evaluate_policies
      simp [List.isEmpty_iff, hne, hd, hal]
  · rw [evaluate_policies_decision] at htrue
    have hal : policies.filter (fun p => evalP p && !(p.effect == Effect.DENY)) ≠ [] := by
      intro hnil
      rw [hnil] at htrue
      simp at htrue
    obtain ⟨p, hp⟩ := List.exists_mem_of_ne_nil _ hal
    have := List.mem_filter.mp hp
    refine ⟨p, this.1, ?_, ?_⟩
    · have h2 := this.2
      simp at h2
      exact h2.1
    · have h2 := this.2
      simp at h2
      cases hpe : p.effect
      · rfl
      · exact absurd hpe h2.2
  · simp [PolicyEngine.check_access, hs, PolicyEngine.get_subject_attributes, ha,
      PolicyEngine.log_decision]

/-- Witness for C3 at concrete inputs: the empty set and the singleton
`[p1]` with a match function that rejects everything. -/
theorem default_deny_witness :
    ([p1] ≠ ([] : List Policy)) ∧
    (∀ p ∈ [p1], (fun _ : Policy => false) p = false) ∧
    (evaluate_policies (fun _ : Policy => false) [] =
      (false, "No applicable policies found", [])) ∧
    (evaluate_policies (fun _ : Policy => false) [p1]).1 = false ∧
    (evaluate_policies (fun _ : Policy => false) [p1]).2.1 = "No matching policy rules" ∧
    aliceEngine.user.is_superuser = false ∧
    aliceEngine.user.is_org_admin = false ∧
    (aliceEngine.check_access db0 (fun _ => false) env0 true [] "payroll" "read" [] none).1 =
      (evaluate_policies (fun _ => false)
        (aliceEngine.get_applicable_policies db0 aliceEngine.get_subject_attributes
          "payroll" "read" none)).1 := by
  have hne : [p1] ≠ ([] : List Policy) := by simp
  have hno : ∀ p ∈ [p1], (fun _ : Policy => false) p = false := by simp
  have h := default_deny aliceEngine db0 (fun _ => false) env0 true [] "payroll" "read"
    [] none [p1]
  exact ⟨hne, hno, h.1, (h.2.1 hne hno).1, (h.2.1 hne hno).2, rfl, rfl,
    h.2.2.2 rfl rfl⟩

/-- Following the claim wording for C7: is a nullable string filter field
"set"? In the source the filters are guarded by Python truthiness, so
"set" means present and non-empty and "null" covers `None` and the empty
value. -/
def strFilterSet : Option String → Bool
  | none => false
  | some s => !s.isEmpty

/-- Following the claim wording for C7: is the nullable action-set filter
"set" (present and non-empty)? -/
def actionsFilterSet : Option (List String) → Bool
  | none => false
  | some l => !l.isEmpty

/-- Following the claim wording for C7, as a second definition to compare
against the source translation `policyApplies`: the filter drops a policy
iff its resource_type is set and differs from the request, or its actions
set is set and the action is not a member, or its resource_id is set, a
resource_id was supplied, and they differ. -/
def specDropsPolicy (p : Policy) (resource_type action : String)
    (resource_id : Option String) : Bool :=
  (strFilterSet p.resource_type && p.resource_type != some resource_type) ||
  (actionsFilterSet p.actions && !(p.actions.getD []).contains action) ||
  (strFilterSet p.resource_id && strFilterSet resource_id &&
    p.resource_id != resource_id)

/-- The empty string is empty. -/
theorem empty_string_isEmpty : "".isEmpty = true := rfl

/-- A non-empty string literal value is not `isEmpty`. -/
theorem isEmpty_false_of_ne (s : String) (h : ¬ s = "") : s.isEmpty = false := by
  cases he : s.isEmpty
  · rfl
  · exact absurd ((String.isEmpty_iff s).mp he) h

/-- C7: the applicability filter of `_get_applicable_policies` keeps a
policy exactly when none of the three drop conditions of the claim holds,
and a policy with all three filter fields null passes for every request. -/
theorem applicability_filter_correct (p : Policy) (rt act : String)
    (rid : Option String) :
    policyApplies p rt act rid = !specDropsPolicy p rt act rid ∧
    (p.resource_type = none → p.actions = none → p.resource_id = none →
      policyApplies p rt act rid = true) := by
  constructor
  · rcases p with ⟨i, n, eff, pr, prt, pacts, prid, ia, vn, org⟩
    simp only [policyApplies, specDropsPolicy, Bool.not_or]
    congr 1
    · congr 1
      · rcases prt with _ | s
        · rfl
        · by_cases h1 : s = "" <;> by_cases h2 : s = rt <;>
            simp [strFilterSet, h1, h2, isEmpty_false_of_ne, empty_string_isEmpty]
      · rcases pacts with _ | acts <;> rfl
    · rcases prid with _ | pid <;> rcases rid with _ | reqid
      · rfl
      · rfl
      · simp [strFilterSet]
      · by_cases h3 : pid = "" <;> by_cases h4 : reqid = "" <;>
          by_cases h5 : pid = reqid <;>
            simp [strFilterSet, h3, h4, h5, isEmpty_false_of_ne, empty_string_isEmpty]
  · intro h1 h2 h3
    simp [policyApplies, h1, h2, h3]

/-- Witness for C7, second part: an unfiltered policy (`p3` has all three
filter fields null) passes for a concrete request. -/
theorem applicability_filter_correct_witness :
    p3.resource_type = none ∧ p3.actions = none ∧ p3.resource_id = none ∧
    policyApplies p3 "payroll" "delete" (some "r42") = true :=
  ⟨rfl, rfl, rfl,
    (applicability_filter_correct p3 "payroll" "delete" (some "r42")).2 rfl rfl rfl⟩

/-- C10: a policy reached through a matching active group is resolved into
the applicable set whenever it is active and passes the resource filters —
no hypothesis on its validity window is needed, because
`_get_group_policies` only filters on `is_active`; by contrast, every
policy contributed by the direct-assignment path satisfied both
`is_valid_now` checks and `is_active`. -/
theorem group_path_skips_validity_window (e : PolicyEngine) (db : Database)
    (attrs : SubjectAttrs) (rt act : String) (rid : Option String)
    (g : GroupPolicy) (p : Policy)
    (hg : g ∈ db.group_policies) (horg : some g.organization = e.organization)
    (hga : g.is_active = true) (hmatch : groupApplies g attrs = true)
    (hp : p ∈ g.policies) (hpa : p.is_active = true)
    (happ : policyApplies p rt act rid = true) :
    p ∈ e.get_applicable_policies db attrs rt act rid ∧
    (∀ q ∈ e.active_user_policies db, q.is_active = true ∧ q.valid_now = true) := by
  constructor
  · have hgrp : p ∈ e.get_group_policies db attrs := by
      unfold PolicyEngine.get_group_policies
      rw [List.mem_flatMap]
      refine ⟨g, ?_, ?_⟩
      · rw [List.mem_filter]
        exact ⟨hg, by simp [horg, hga]⟩
      · rw [hmatch]
        simp only [if_true]
        rw [List.mem_filter]
        exact ⟨hp, hpa⟩
    unfold PolicyEngine.get_applicable_policies sortByPriorityDesc
    rw [List.mem_mergeSort, List.mem_filter]
    refine ⟨?_, happ⟩
    rw [List.mem_dedup, List.mem_append]
    exact Or.inr hgrp
  · intro q hq
    unfold PolicyEngine.active_user_policies at hq
    rw [List.mem_map] at hq
    obtain ⟨up, hup, hqeq⟩ := hq
    rw [List.mem_filter] at hup
    have h2 := hup.2
    simp only [Bool.and_eq_true] at h2
    rw [← hqeq]
    exact ⟨h2.1.2, h2.2⟩

/-- Witness for C10: `p3` is active but outside its validity window
(`valid_now = false`); reached through the tenant-1 Engineering group it
still lands in the applicable set of a check by `alice`. -/
theorem group_path_skips_validity_window_witness :
    p3.valid_now = false ∧
    p3 ∈ aliceEngine.get_applicable_policies db0 aliceEngine.get_subject_attributes
      "payroll" "read" none := by
  have hg : engGroup ∈ db0.group_policies := by simp [db0]
  refine ⟨rfl, (group_path_skips_validity_window aliceEngine db0
    aliceEngine.get_subject_attributes "payroll" "read" none engGroup p3 hg rfl rfl
    (by decide) (by simp [engGroup]) rfl (by decide)).1⟩

/-- The tenant-`org` slice of the database: exactly the rows the two
ORM filters `organization=self.organization` can ever return. -/
def Database.restrictTo (db : Database) (org : Nat) : Database :=
  { user_policies := db.user_policies.filter (fun up => up.organization == org),
    group_policies := db.group_policies.filter (fun g => g.organization == org) }

/-- Filtering by `P` factors through any pre-filter `Q` implied by `P`. -/
theorem filter_filter_of_imp {α : Type} (P Q : α → Bool)
    (h : ∀ x, P x = true → Q x = true) (l : List α) :
    (l.filter Q).filter P = l.filter P := by
  induction l with
  | nil => rfl
  | cons x xs ih =>
    by_cases hP : P x = true
    · have hQ := h x hP
      simp [List.filter_cons, hP, hQ, ih]
    · by_cases hQ : Q x = true <;>
        simp [List.filter_cons, hP, hQ, ih]

/-- The user-policy queryset reads only the tenant slice of the table. -/
theorem user_policy_rows_restrict (e : PolicyEngine) (A : Nat)
    (hA : e.organization = some A) (db : Database) :
    e.user_policy_rows db = e.user_policy_rows (db.restrictTo A) := by
  unfold PolicyEngine.user_policy_rows Database.restrictTo
  refine (filter_filter_of_imp _ _ ?_ _).symm
  intro up hP
  simp only [Bool.and_eq_true] at hP
  have h2 := hP.1.2
  rw [hA] at h2
  have h3 : some up.organization = some A := by simpa using h2
  simp [Option.some.inj h3]

/-- The active-user-policies comprehension reads only the tenant slice. -/
theorem active_user_policies_restrict (e : PolicyEngine) (A : Nat)
    (hA : e.organization = some A) (db : Database) :
    e.active_user_policies db = e.active_user_policies (db.restrictTo A) := by
  unfold PolicyEngine.active_user_policies
  rw [user_policy_rows_restrict e A hA db]

/-- The group-policy queryset reads only the tenant slice of the table. -/
theorem get_group_policies_restrict (e : PolicyEngine) (A : Nat)
    (hA : e.organization = some A) (db : Database) (attrs : SubjectAttrs) :
    e.get_group_policies db attrs = e.get_group_policies (db.restrictTo A) attrs := by
  unfold PolicyEngine.get_group_policies Database.restrictTo
  congr 1
  refine (filter_filter_of_imp _ _ ?_ _).symm
  intro g hP
  simp only [Bool.and_eq_true] at hP
  have h2 := hP.1
  rw [hA] at h2
  have h3 : some g.organization = some A := by simpa using h2
  simp [Option.some.inj h3]

/-- Policy resolution reads only the tenant slice of the database. -/
theorem get_applicable_policies_restrict (e : PolicyEngine) (A : Nat)
    (hA : e.organization = some A) (db : Database) (attrs : SubjectAttrs)
    (rt act : String) (rid : Option String) :
    e.get_applicable_policies db attrs rt act rid =
      e.get_applicable_policies (db.restrictTo A) attrs rt act rid := by
  unfold PolicyEngine.get_applicable_policies
  rw [active_user_policies_restrict e A hA db,
    get_group_policies_restrict e A hA db attrs]

/-- C5: with the engine bound to tenant `A`, (i) under the tenant-scoping
invariant (rows of tenant `A` reference only policies of tenant `A`) every
resolved applicable policy belongs to tenant `A` — so a policy of any
other tenant `B` is never resolved or matched, whatever coincidental user
ids or group values tenant `B` holds; and (ii) any two databases that
agree on their tenant-`A` rows — in particular a database before and after
adding, removing, or modifying records of another tenant `B` — yield the
same applicable list and the same `check_access` outcome and log
behaviour. -/
theorem tenant_isolation (e : PolicyEngine) (A : Nat) (db db' : Database)
    (attrs : SubjectAttrs) (rt act : String) (rid : Option String)
    (evalP : Policy → Bool) (env : EnvAttrs) (auditOk : Bool)
    (logs : List PolicyLog) (ra : List (String × String))
    (hA : e.organization = some A)
    (hsame : db.restrictTo A = db'.restrictTo A)
    (hwfU : ∀ up ∈ db.user_policies, up.organization = A →
      up.policy.organization = A)
    (hwfG : ∀ g ∈ db.group_policies, g.organization = A →
      ∀ p ∈ g.policies, p.organization = A) :
    (∀ p ∈ e.get_applicable_policies db attrs rt act rid, p.organization = A) ∧
    e.get_applicable_policies db attrs rt act rid =
      e.get_applicable_policies db' attrs rt act rid ∧
    e.check_access db evalP env auditOk logs rt act ra rid =
      e.check_access db' evalP env auditOk logs rt act ra rid := by
  have happ : ∀ attrs2 : SubjectAttrs,
      e.get_applicable_policies db attrs2 rt act rid =
        e.get_applicable_policies db' attrs2 rt act rid := by
    intro attrs2
    rw [get_applicable_policies_restrict e A hA db attrs2,
      get_applicable_policies_restrict e A hA db' attrs2, hsame]
  refine ⟨?_, happ attrs, ?_⟩
  · intro p hp
    unfold PolicyEngine.get_applicable_policies sortByPriorityDesc at hp
    rw [List.mem_mergeSort, List.mem_filter] at hp
    have hp2 := hp.1
    rw [List.mem_dedup, List.mem_append] at hp2
    rcases hp2 with hu | hg
    · unfold PolicyEngine.active_user_policies at hu
      rw [List.mem_map] at hu
      obtain ⟨up, hup, hpeq⟩ := hu
      rw [List.mem_filter] at hup
      have hrow := hup.1
      unfold PolicyEngine.user_policy_rows at hrow
      rw [List.mem_filter] at hrow
      have horg : up.organization = A := by
        have h2 := hrow.2
        simp only [Bool.and_eq_true] at h2
        have := h2.1.2
        rw [hA] at this
        simpa using this
      rw [← hpeq]
      exact hwfU up hrow.1 horg
    · unfold PolicyEngine.get_group_policies at hg
      rw [List.mem_flatMap] at hg
      obtain ⟨g, hgmem, hpin⟩ := hg
      rw [List.mem_filter] at hgmem
      have horg : g.organization = A := by
        have h2 := hgmem.2
        simp only [Bool.and_eq_true] at h2
        have := h2.1
        rw [hA] at this
        simpa using this
      by_cases hga : groupApplies g attrs = true
      · rw [hga] at hpin
        simp only [if_true] at hpin
        rw [List.mem_filter] at hpin
        exact hwfG g hgmem.1 horg p hpin.1
      · rw [Bool.not_eq_true] at hga
        rw [hga] at hpin
        simp at hpin
  · by_cases hs : e.user.is_superuser = true
    · simp [PolicyEngine.check_access, hs]
    · by_cases ha : e.user.is_org_admin = true
      · simp [PolicyEngine.check_access, hs, PolicyEngine.get_subject_attributes, ha]
      · simp only [PolicyEngine.check_access, hs, Bool.false_eq_true, if_false]
        rw [happ e.get_subject_attributes]

/-- A second tenant-2 policy used to mutate tenant 2 in the witness. -/
def q2 : Policy :=
  { id := 22, name := "Q2", effect := Effect.DENY, priority := 50,
    resource_type := none, actions := none, resource_id := none,
    is_active := true, valid_now := true, organization := 2 }

/-- `db0` with tenant 2 modified (assignment re-pointed, group deactivated
and regrouped) and a tenant-3 row added; the tenant-1 rows are untouched. -/
def db1 : Database :=
  { user_policies :=
      [ { user := 1, organization := 1, is_active := true, valid_now := true, policy := p2 },
        { user := 1, organization := 2, is_active := true, valid_now := true, policy := q2 },
        { user := 1, organization := 3, is_active := true, valid_now := true, policy := q2 } ],
    group_policies :=
      [ engGroup,
        { organization := 2, group_type := "department", group_value := "Engineering",
          is_active := false, policies := [q1, q2] } ] }

/-- Witness for C5: `db0` and `db1` differ in tenant-2 and tenant-3 rows
only; the engine bound to tenant 1 resolves the same applicable list over
both, and resolves only tenant-1 policies. -/
theorem tenant_isolation_witness :
    aliceEngine.organization = some 1 ∧
    db0.restrictTo 1 = db1.restrictTo 1 ∧
    (∀ up ∈ db0.user_policies, up.organization = 1 → up.policy.organization = 1) ∧
    (∀ g ∈ db0.group_policies, g.organization = 1 →
      ∀ p ∈ g.policies, p.organization = 1) ∧
    aliceEngine.get_applicable_policies db0 aliceEngine.get_subject_attributes
        "payroll" "read" none =
      aliceEngine.get_applicable_policies db1 aliceEngine.get_subject_attributes
        "payroll" "read" none ∧
    (∀ p ∈ aliceEngine.get_applicable_policies db0 aliceEngine.get_subject_attributes
        "payroll" "read" none, p.organization = 1) := by
  have h := tenant_isolation aliceEngine 1 db0 db1 aliceEngine.get_subject_attributes
    "payroll" "read" none (fun _ => true) env0 true [] [] rfl (by decide) (by decide)
    (by decide)
  exact ⟨rfl, by decide, by decide, by decide, h.2.1, h.1⟩

/-- Changing only the `priority` field of a policy. -/
def Policy.setPriority (p : Policy) (v : Int) : Policy := { p with priority := v }

/-- `setPriority` leaves the effect untouched. -/
theorem setPriority_effect (p : Policy) (v : Int) :
    (p.setPriority v).effect = p.effect := rfl

/-- Permuted lists are empty together. -/
theorem perm_isEmpty_eq {α : Type} {l l' : List α} (h : l.Perm l') :
    l.isEmpty = l'.isEmpty := by
  cases l with
  | nil =>
    have h0 : l' = [] := h.nil_eq.symm
    subst h0; rfl
  | cons x xs =>
    cases l' with
    | nil => exact absurd h.symm.nil_eq (by simp)
    | cons y ys => rfl

/-- Mapping preserves emptiness. -/
theorem map_isEmpty_eq {α β : Type} (f : α → β) (l : List α) :
    (l.map f).isEmpty = l.isEmpty := by
  cases l <;> rfl

/-- C6: over a fixed applicable set, the allow/deny decision of
`_evaluate_policies` is unchanged by any permutation of the evaluation
order, in particular by the priority-descending sort, and unchanged by any
reassignment of the priority values (for any match function that, like
`Policy.evaluate`, does not read the priority field); priority and order
influence only the reported evaluation order and reason phrasing. -/
theorem decision_invariant_priority_order (evalP : Policy → Bool)
    (l l' : List Policy) (f : Policy → Int)
    (hperm : l.Perm l')
    (hblind : ∀ (p : Policy) (v : Int), evalP (p.setPriority v) = evalP p) :
    (evaluate_policies evalP l).1 = (evaluate_policies evalP l').1 ∧
    (evaluate_policies evalP (sortByPriorityDesc l)).1 =
      (evaluate_policies evalP l).1 ∧
    (evaluate_policies evalP (l.map (fun p => p.setPriority (f p)))).1 =
      (evaluate_policies evalP l).1 := by
  have hpermdec : ∀ l₁ l₂ : List Policy, l₁.Perm l₂ →
      (evaluate_policies evalP l₁).1 = (evaluate_policies evalP l₂).1 := by
    intro l₁ l₂ h
    rw [evaluate_policies_decision, evaluate_policies_decision,
      perm_isEmpty_eq (h.filter (fun p => evalP p && p.effect == Effect.DENY)),
      perm_isEmpty_eq (h.filter (fun p => evalP p && !(p.effect == Effect.DENY)))]
  refine ⟨hpermdec l l' hperm, hpermdec _ l (List.mergeSort_perm l _), ?_⟩
  have hq : ∀ q : Policy → Bool, (∀ p : Policy, q (p.setPriority (f p)) = q p) →
      ((l.map (fun p => p.setPriority (f p))).filter q).isEmpty =
        (l.filter q).isEmpty := by
    intro q hqp
    rw [List.filter_map, map_isEmpty_eq]
    congr 1
    exact List.filter_congr (fun p _ => hqp p)
  rw [evaluate_policies_decision, evaluate_policies_decision,
    hq (fun p => evalP p && p.effect == Effect.DENY)
      (fun p => by simp only [hblind p (f p), setPriority_effect]),
    hq (fun p => evalP p && !(p.effect == Effect.DENY))
      (fun p => by simp only [hblind p (f p), setPriority_effect])]

/-- Witness for C6 with the matched set `[p1, p2]`, its transposition, the
priority-descending sort, and the constant reprioritization to 0, under
the priority-blind match function reading `is_active`. -/
theorem decision_invariant_priority_order_witness :
    ([p1, p2].Perm [p2, p1]) ∧
    (∀ (p : Policy) (v : Int),
      (fun q : Policy => q.is_active) (p.setPriority v) =
        (fun q : Policy => q.is_active) p) ∧
    (evaluate_policies (fun q => q.is_active) [p1, p2]).1 =
      (evaluate_policies (fun q => q.is_active) [p2, p1]).1 ∧
    (evaluate_policies (fun q => q.is_active)
        (sortByPriorityDesc [p1, p2])).1 =
      (evaluate_policies (fun q => q.is_active) [p1, p2]).1 ∧
    (evaluate_policies (fun q => q.is_active)
        ([p1, p2].map (fun p => p.setPriority ((fun _ => (0 : Int)) p)))).1 =
      (evaluate_policies (fun q => q.is_active) [p1, p2]).1 := by
  have hperm : [p1, p2].Perm [p2, p1] := List.Perm.swap p2 p1 []
  have hblind : ∀ (p : Policy) (v : Int),
      (fun q : Policy => q.is_active) (p.setPriority v) =
        (fun q : Policy => q.is_active) p := fun p v => rfl
  have h := decision_invariant_priority_order (fun q => q.is_active) [p1, p2] [p2, p1]
    (fun _ => (0 : Int)) hperm hblind
  exact ⟨hperm, hblind, h.1, h.2.1, h.2.2⟩

end Abac
